import Mathlib

/-!
Verification development for the MiniAgent framework: shallow embedding of
the agent run loop, tool registry, retry policy, event bus and conversation
thread, together with the tools defined in test_comprehensive.py.

The package modules miniagent.core, miniagent.tools, miniagent.llm and
miniagent.events are not present in the repository excerpt (only their
declarations in miniagent_framework/__init__.py and their callers in
test_comprehensive.py are). Those components are modelled from the
specification, as marked on each definition. The functions calculate and
flaky_tool are embedded directly from src/test_comprehensive.py.
-/

namespace MiniAgent

/-- Message roles, from the spec data model (system/user/assistant/tool). -/
inductive Role
  | system
  | user
  | assistant
  | tool
deriving DecidableEq

/-- Semantic types a tool parameter schema can declare. -/
inductive PType
  | str
  | int
  | bool
deriving DecidableEq

/-- Argument values passed to tools. -/
inductive PValue
  | str (s : String)
  | int (n : Int)
  | bool (b : Bool)
deriving DecidableEq

/-- Semantic type of a value. -/
def PValue.ptype : PValue → PType
  | .str _ => .str
  | .int _ => .int
  | .bool _ => .bool

/-- Event kinds, the fixed set from the spec data model. -/
inductive EventKind
  | turnStarted
  | agentThinking
  | streamChunk
  | toolExecutionStarted
  | toolExecutionFinished
  | turnCompleted
  | error
deriving DecidableEq

/-- Modelled from the spec: an Event is an immutable kind-tagged record with a
kind-specific payload (miniagent.events is missing from the excerpt). -/
structure Event where
  kind : EventKind
  payload : String
deriving DecidableEq

/-- Modelled from the spec: a Message has a role, content and optional
tool-call metadata (miniagent.core is missing from the excerpt). -/
structure Message where
  role : Role
  content : String
  toolName : Option String := none
deriving DecidableEq

/-- Modelled from the spec: a Thread owns an ordered sequence of Messages and
an ordered sequence of emitted Events (miniagent.core is missing). -/
structure Thread where
  messages : List Message := []
  events : List Event := []
deriving DecidableEq

/-- Append a message at the end of the thread (append-only). -/
def Thread.append (t : Thread) (m : Message) : Thread :=
  { t with messages := t.messages ++ [m] }

/-- Record one published event into the thread event log. -/
def Thread.record (t : Thread) (e : Event) : Thread :=
  { t with events := t.events ++ [e] }

/-- Modelled from the spec: a RetryPolicy holds a fixed number of retries and
a fixed delay (miniagent.llm is missing from the excerpt). The delay plays no
role in the functional semantics. -/
structure RetryPolicy where
  max_retries : Nat
  delay : ℚ

/-- Modelled from the spec: the constant retry strategy constructor used as
constant_retry(max_retries=..., delay=...) in test_comprehensive.py. -/
def constant_retry (max_retries : Nat) (delay : ℚ) : RetryPolicy :=
  ⟨max_retries, delay⟩

/-- Boolean success test for an Except value. -/
def isOkE : Except ε α → Bool
  | .ok _ => true
  | .error _ => false

/-- Modelled from the spec: execution of a fallible operation under a retry
budget. The operation takes the index of the current attempt (the caller
re-invokes the operation afresh on each attempt); the first component is the
final outcome and the second is one past the index of the last attempt made,
so starting from index 0 it is the number of invocations consumed. -/
def retryGo (op : Nat → Except ε α) : Nat → Nat → Except ε α × Nat
  | 0, i => (op i, i + 1)
  | r + 1, i =>
    match op i with
    | .ok a => (.ok a, i + 1)
    | .error _ => retryGo op r (i + 1)

/-- Modelled from the spec: run an operation under a retry policy, returning
the outcome together with the number of attempts consumed. -/
def runWithRetry (pol : RetryPolicy) (op : Nat → Except ε α) : Except ε α × Nat :=
  retryGo op pol.max_retries 0

/-- Modelled from the spec: a Tool is a named, described capability with a
declared parameter schema and a fallible body. The body receives the argument
mapping and the attempt index of the current re-invocation. -/
structure Tool where
  name : String
  description : String
  schema : List (String × PType)
  body : List (String × PValue) → Nat → Except String String

/-- Failure classification recorded inside a ToolResult. -/
inductive ToolErrorKind
  | unknownTool
  | invalidArguments
  | executionFailed (msg : String)
deriving DecidableEq

/-- Modelled from the spec: outcome of one tool invocation, success payload or
failure description plus the number of attempts consumed. -/
structure ToolResult where
  success : Bool
  data : String
  error : Option ToolErrorKind
  attempts : Nat
deriving DecidableEq

/-- Modelled from the spec: schema validation checks that every declared key
is present in the argument mapping with the declared semantic type. -/
def validateArgs (schema : List (String × PType)) (args : List (String × PValue)) : Bool :=
  schema.all (fun p =>
    match args.lookup p.1 with
    | some v => v.ptype == p.2
    | none => false)

/-- Modelled from the spec: the ToolRegistry holds named tools. -/
structure ToolRegistry where
  tools : List Tool := []

/-- Look a tool up by name. -/
def ToolRegistry.find (reg : ToolRegistry) (name : String) : Option Tool :=
  reg.tools.find? (fun t => t.name == name)

/-- Modelled from the spec: execute(name, arguments) resolves the tool,
validates the arguments against the declared schema, then invokes the body
under the configured retry policy. Every outcome, including unknown tool,
invalid arguments and exhausted retries, is returned as a ToolResult; the
function is total, so no tool failure propagates to the caller. -/
def ToolRegistry.execute (reg : ToolRegistry) (pol : RetryPolicy) (name : String)
    (args : List (String × PValue)) : ToolResult :=
  match reg.find name with
  | none => ⟨false, "", some .unknownTool, 0⟩
  | some t =>
    if validateArgs t.schema args then
      match runWithRetry pol (t.body args) with
      | (.ok v, n) => ⟨true, v, none, n⟩
      | (.error e, n) => ⟨false, "", some (.executionFailed e), n⟩
    else ⟨false, "", some .invalidArguments, 0⟩

/-- Modelled from the spec: the event bus (StreamCallback in miniagent.events,
missing from the excerpt) holds an ordered list of (kind, handler)
registrations. A handler may itself fail, modelled as an Except result. -/
structure StreamCallback where
  handlers : List (EventKind × (Event → Except String Unit)) := []

/-- Modelled from the spec: subscribe(kind, handler) appends one registration;
registration order is delivery order. -/
def StreamCallback.on (cb : StreamCallback) (k : EventKind)
    (h : Event → Except String Unit) : StreamCallback :=
  ⟨cb.handlers ++ [(k, h)]⟩

/-- Handlers subscribed to one kind, in registration order. -/
def handlersFor (cb : StreamCallback) (k : EventKind) : List (Event → Except String Unit) :=
  cb.handlers.filterMap (fun p => if p.1 == k then some p.2 else none)

/-- Outcome of one publish: the per-handler results in invocation order, and
the error events produced for failed handlers. -/
structure PublishOutcome where
  trace : List (Except String Unit)
  diagnostics : List Event

/-- Modelled from the spec: deliver an event to a list of handlers in order;
a failing handler is recorded as a diagnostic error event and delivery
continues with the remaining handlers. -/
def publishGo (ev : Event) : List (Event → Except String Unit) → PublishOutcome
  | [] => ⟨[], []⟩
  | h :: hs =>
    let tail := publishGo ev hs
    match h ev with
    | .ok u => ⟨.ok u :: tail.trace, tail.diagnostics⟩
    | .error m => ⟨.error m :: tail.trace, Event.mk .error m :: tail.diagnostics⟩

/-- Modelled from the spec: publish(event) delivers the event synchronously to
every handler subscribed to its kind, in registration order, before
returning; the function is total, so no handler failure unwinds the caller. -/
def publish (cb : StreamCallback) (ev : Event) : PublishOutcome :=
  publishGo ev (handlersFor cb ev.kind)

/-- Modelled from the spec: one tool request emitted by the model. -/
structure ToolRequest where
  name : String
  arguments : List (String × PValue)
deriving DecidableEq

/-- Modelled from the spec: a complete model response, final text plus the
list of tool requests, plus the streamed chunks that produced it. -/
structure ModelResponse where
  text : String
  tool_requests : List ToolRequest
  chunks : List String := []
deriving DecidableEq

/-- Modelled from the spec: immutable agent configuration snapshot. -/
structure AgentConfig where
  name : String
  system_prompt : String
  retry_policy : RetryPolicy
  stream_by_default : Bool := true
  default_max_iterations : Nat := 10

/-- Content of the tool message built from a ToolResult: the success payload,
or the failure description. -/
def ToolErrorKind.describe : ToolErrorKind → String
  | .unknownTool => "unknown tool"
  | .invalidArguments => "invalid arguments"
  | .executionFailed m => m

/-- Text placed in the tool message for one result. -/
def toolResultText (r : ToolResult) : String :=
  if r.success then r.data
  else
    match r.error with
    | some e => e.describe
    | none => ""

/-- Tool message fed back into the conversation for one request and its
result (success or failure alike). -/
def mkToolMsg (req : ToolRequest) (res : ToolResult) : Message :=
  ⟨.tool, toolResultText res, some req.name⟩

/-- Modelled from the spec: results of a concurrent tool-execution phase as
they complete. The completion order is an arbitrary list of request indices;
each completed call is stored with its request index, as in an index-keyed
result map filled in completion order. -/
def completedResults (reg : ToolRegistry) (pol : RetryPolicy) (reqs : List ToolRequest)
    (order : List Nat) : List (Nat × ToolResult) :=
  order.filterMap (fun i =>
    (reqs.get? i).map (fun r => (i, reg.execute pol r.name r.arguments)))

/-- Modelled from the spec: rebuild the tool messages in original request
order by looking each request index up in the completed-result map. -/
def gatherMsgs (compl : List (Nat × ToolResult)) : List ToolRequest → Nat → List Message
  | [], _ => []
  | r :: rest, i =>
    match compl.lookup i with
    | some res => mkToolMsg r res :: gatherMsgs compl rest (i + 1)
    | none => gatherMsgs compl rest (i + 1)

/-- Started events for a phase, in request order. -/
def startedEvents (reqs : List ToolRequest) : List Event :=
  reqs.map (fun r => ⟨.toolExecutionStarted, r.name⟩)

/-- Finished events for a phase, in completion order. -/
def finishedEvents (reg : ToolRegistry) (pol : RetryPolicy) (reqs : List ToolRequest)
    (order : List Nat) : List Event :=
  (completedResults reg pol reqs order).map (fun p => ⟨.toolExecutionFinished, toolResultText p.2⟩)

/-- Modelled from the spec: one tool-execution phase. Started events are
published in request order, finished events in completion order, and the tool
messages are appended to the thread in original request order. -/
def execPhase (reg : ToolRegistry) (pol : RetryPolicy) (reqs : List ToolRequest)
    (order : List Nat) (th : Thread) : Thread :=
  { messages := th.messages ++ gatherMsgs (completedResults reg pol reqs order) reqs 0,
    events := th.events ++ startedEvents reqs ++ finishedEvents reg pol reqs order }

/-- Terminal failures of a run. -/
inductive RunError
  | modelUnavailable
  | iterationLimitExceeded
  | cancelled
deriving DecidableEq

/-- Outcome of one run: the returned text or the terminal failure, the thread
carrying the partial history, the total number of model-call attempts made,
and the number of tool-execution phases performed. -/
structure RunOutcome where
  result : Except RunError String
  thread : Thread
  modelCalls : Nat
  toolPhases : Nat

/-- Stream-chunk events published for one model response when streaming. -/
def streamEvents (stream : Bool) (chunks : List String) : List Event :=
  if stream then chunks.map (fun c => ⟨EventKind.streamChunk, c⟩) else []

/-- Modelled from the spec: the agent run loop (miniagent.core is missing).
Each iteration calls the model client under the retry policy (the client is
indexed by the global attempt number); a terminal model failure publishes an
error event and aborts with modelUnavailable; a response with no tool
requests is appended as an assistant message, turn-completed is published and
its text returned; otherwise one tool-execution phase runs (its completion
order given by the schedule) and the loop continues; an exhausted iteration
budget fails with iterationLimitExceeded carrying the partial thread. -/
def runLoop (cfg : AgentConfig) (reg : ToolRegistry) (mc : Nat → Except String ModelResponse)
    (sched : Nat → List Nat) (stream : Bool) :
    Nat → Nat → Nat → Thread → RunOutcome
  | 0, calls, phases, th => ⟨.error .iterationLimitExceeded, th, calls, phases⟩
  | fuel + 1, calls, phases, th =>
    match retryGo mc cfg.retry_policy.max_retries calls with
    | (.error e, calls') =>
      ⟨.error .modelUnavailable, th.record ⟨.error, e⟩, calls', phases⟩
    | (.ok resp, calls') =>
      let th1 : Thread := { th with events := th.events ++ streamEvents stream resp.chunks }
      match resp.tool_requests with
      | [] =>
        ⟨.ok resp.text,
          (th1.append ⟨.assistant, resp.text, none⟩).record ⟨.turnCompleted, resp.text⟩,
          calls', phases⟩
      | q :: qs =>
        runLoop cfg reg mc sched stream fuel calls' (phases + 1)
          (execPhase reg cfg.retry_policy (q :: qs) (sched phases) th1)

/-- Modelled from the spec: an Agent holds its configuration and tools. -/
structure Agent where
  config : AgentConfig
  tools : ToolRegistry

/-- Modelled from the spec: run(user_input, thread, stream, max_iterations)
appends the user message, publishes turn-started, then enters the run loop
with the iteration budget. -/
def Agent.run (a : Agent) (mc : Nat → Except String ModelResponse) (sched : Nat → List Nat)
    (user_input : String) (th : Thread) (stream : Bool) (max_iterations : Nat) : RunOutcome :=
  runLoop a.config a.tools mc sched stream max_iterations 0 0
    ((th.append ⟨.user, user_input, none⟩).record ⟨.turnStarted, user_input⟩)

/-- Embedded from src/test_comprehensive.py: the branch structure of the
calculate tool. The Python eval and the construction of the restricted
namespace are external capabilities, taken as an abstract fallible evaluator;
its Bool argument tells whether the math-namespace branch was taken. When the
expression contains the substring "import math", the source evaluates
expression.split("; ")[1], which raises an index error when no "; " occurs. -/
def calcEval (evalFn : Bool → String → Except String String) (expression : String) :
    Except String String :=
  if "import math".toList <:+: expression.toList then
    match (expression.splitOn "; ").get? 1 with
    | some sub => evalFn true sub
    | none => .error "list index out of range"
  else
    evalFn false expression

/-- Embedded from src/test_comprehensive.py: the calculate tool body. Any
evaluation failure is caught and formatted; it never propagates, the function
is total. The strings match the Python f-strings. -/
def calculate (evalFn : Bool → String → Except String String) (expression : String) : String :=
  match calcEval evalFn expression with
  | .ok result => "📐 Result:" ++ (" " ++ (expression ++ (" = " ++ result)))
  | .error e => "❌ Error calculating" ++ (" \x27" ++ (expression ++ ("\x27: " ++ e)))

/-- Embedded from src/test_comprehensive.py: the flaky_tool body with the
closed-over counter made explicit. It takes the counter value before the
call and returns the updated counter and the outcome: the incremented counter
below 3 raises, otherwise the call succeeds. -/
def flaky_tool (retry_count : Nat) : Nat × Except String String :=
  let c := retry_count + 1
  if c < 3 then (c, .error ("Simulated failure #" ++ toString c))
  else (c, .ok ("Success after " ++ (toString c ++ " attempts!")))

/-- Iterated invocation of flaky_tool starting from the counter at 0: the
state after n invocations and the outcome of the n-th invocation (none when
no invocation has happened yet). -/
def flakyIter : Nat → Nat × Option (Except String String)
  | 0 => (0, none)
  | n + 1 =>
    let s := (flakyIter n).1
    ((flaky_tool s).1, some (flaky_tool s).2)

/-! Helper lemmas about the retry runner. -/

theorem retryGo_snd_ge (op : Nat → Except ε α) (r : Nat) : ∀ i, i + 1 ≤ (retryGo op r i).2 := by
  induction r with
  | zero => intro i; simp [retryGo]
  | succ r ih =>
    intro i
    cases h : op i with
    | ok a => simp [retryGo, h]
    | error e =>
      simp only [retryGo, h]
      have := ih (i + 1)
      omega

theorem retryGo_snd_le (op : Nat → Except ε α) (r : Nat) : ∀ i, (retryGo op r i).2 ≤ i + r + 1 := by
  induction r with
  | zero => intro i; simp [retryGo]
  | succ r ih =>
    intro i
    cases h : op i with
    | ok a =>
      simp only [retryGo, h]
      omega
    | error e =>
      simp only [retryGo, h]
      have := ih (i + 1)
      omega

theorem retryGo_allFail (op : Nat → Except ε α) (hop : ∀ j, isOkE (op j) = false) (r : Nat) :
    ∀ i, retryGo op r i = (op (i + r), i + r + 1) := by
  induction r with
  | zero => intro i; simp [retryGo]
  | succ r ih =>
    intro i
    simp only [retryGo]
    cases h : op i with
    | ok a =>
      have := hop i
      rw [h] at this
      simp [isOkE] at this
    | error e =>
      have e1 : i + 1 + r = i + (r + 1) := by omega
      rw [ih (i + 1), e1]

theorem retryGo_firstOk (op : Nat → Except ε α) (r i : Nat) (a : α) (h : op i = .ok a) :
    retryGo op r i = (.ok a, i + 1) := by
  cases r with
  | zero => simp [retryGo, h]
  | succ r => simp [retryGo, h]

/-- Always-failing tool used as a concrete witness input. -/
def alwaysFailTool : Tool :=
  ⟨"always_fail", "always fails", [], fun _ _ => .error "boom"⟩

/-- Tool whose body fails on the first two attempts and then succeeds, the
retry scenario of the spec. -/
def failTwiceTool : Tool :=
  ⟨"fail_twice", "fails twice then succeeds", [],
    fun _ i => if i < 2 then .error "Simulated failure" else .ok "Success"⟩

/-- C4: a retry policy with max_retries = N invokes the underlying operation
at least once and at most N+1 times (the second component of runWithRetry is
the number of invocations made); max_retries = 0 means exactly one attempt;
and a tool failing twice then succeeding under constant_retry with
max_retries = 3 yields ToolResult with success = true and attempts = 3. -/
theorem c4_retry_attempt_bounds (pol : RetryPolicy) (op : Nat → Except String String) :
    1 ≤ (runWithRetry pol op).2 ∧
    (runWithRetry pol op).2 ≤ pol.max_retries + 1 ∧
    (pol.max_retries = 0 → (runWithRetry pol op).2 = 1) ∧
    ToolRegistry.execute ⟨[failTwiceTool]⟩ (constant_retry 3 (1/2)) "fail_twice" []
      = ⟨true, "Success", none, 3⟩ := by
  refine ⟨?_, ?_, ?_, ?_⟩
  · have := retryGo_snd_ge op pol.max_retries 0
    simpa [runWithRetry] using this
  · have := retryGo_snd_le op pol.max_retries 0
    simpa [runWithRetry] using this
  · intro h
    simp [runWithRetry, h, retryGo]
  · rfl

/-- Witness for C4 at the concrete policy with max_retries = 0. -/
theorem c4_witness :
    (runWithRetry (constant_retry 0 (1/2))
      (fun _ => (Except.ok "x" : Except String String))).2 = 1 :=
  (c4_retry_attempt_bounds (constant_retry 0 (1/2))
    (fun _ => (Except.ok "x" : Except String String))).2.2.1 rfl

/-- C1: when the registered tool body fails on every attempt, execute returns
a ToolResult with success = false and attempts equal to the full retry budget
max_retries + 1; execute is a total function into ToolResult, so the tool
body failure is never propagated to the caller. -/
theorem c1_exhausted_retries_are_a_result (reg : ToolRegistry) (pol : RetryPolicy)
    (name : String) (args : List (String × PValue)) (t : Tool)
    (hfind : reg.find name = some t)
    (hval : validateArgs t.schema args = true)
    (hfail : ∀ i, isOkE (t.body args i) = false) :
    (reg.execute pol name args).success = false ∧
    (reg.execute pol name args).attempts = pol.max_retries + 1 := by
  unfold ToolRegistry.execute
  rw [hfind]
  simp only [hval, if_true]
  unfold runWithRetry
  rw [retryGo_allFail (t.body args) hfail pol.max_retries 0]
  cases hb : t.body args (0 + pol.max_retries) with
  | ok a =>
    have := hfail (0 + pol.max_retries)
    rw [hb] at this
    simp [isOkE] at this
  | error e =>
    refine ⟨rfl, ?_⟩
    show 0 + pol.max_retries + 1 = pol.max_retries + 1
    omega

/-- Witness for C1 on a registry holding one always-failing tool under a
policy with two retries. -/
theorem c1_witness :
    (ToolRegistry.execute ⟨[alwaysFailTool]⟩ (constant_retry 2 (1/2)) "always_fail" []).success
      = false ∧
    (ToolRegistry.execute ⟨[alwaysFailTool]⟩ (constant_retry 2 (1/2)) "always_fail" []).attempts
      = 3 :=
  c1_exhausted_retries_are_a_result ⟨[alwaysFailTool]⟩ (constant_retry 2 (1/2)) "always_fail" []
    alwaysFailTool rfl rfl (fun _ => rfl)

/-- C8: execute reports unknownTool exactly when no tool of the given name is
registered, and, for a registered tool, invalidArguments exactly when the
argument mapping fails schema validation; both protocol errors are returned
as a failed ToolResult (success = false), the value fed back into the
conversation as a tool message, never a propagated failure. -/
theorem c8_protocol_errors (reg : ToolRegistry) (pol : RetryPolicy) (name : String)
    (args : List (String × PValue)) :
    ((reg.execute pol name args).error = some .unknownTool ↔ reg.find name = none) ∧
    (∀ t, reg.find name = some t →
      ((reg.execute pol name args).error = some .invalidArguments ↔
        validateArgs t.schema args = false)) ∧
    (((reg.execute pol name args).error = some .unknownTool ∨
      (reg.execute pol name args).error = some .invalidArguments) →
      (reg.execute pol name args).success = false) := by
  unfold ToolRegistry.execute
  cases hfind : reg.find name with
  | none =>
    simp only [hfind]
    refine ⟨by simp, ?_, by simp⟩
    intro t ht
    simp at ht
  | some t =>
    simp only [hfind]
    cases hval : validateArgs t.schema args with
    | false =>
      simp only [hval, Bool.false_eq_true, if_false]
      refine ⟨by simp [hfind], ?_, by simp⟩
      intro u hu
      have hut : u = t := (Option.some.inj hu).symm
      subst hut
      simp [hval]
    | true =>
      simp only [hval, if_true]
      rcases hr : runWithRetry pol (t.body args) with ⟨res, n⟩
      cases res with
      | ok v =>
        refine ⟨by simp [hfind], ?_, by simp⟩
        intro u hu
        have hut : u = t := (Option.some.inj hu).symm
        subst hut
        simp [hval]
      | error e =>
        refine ⟨by simp [hfind], ?_, by simp⟩
        intro u hu
        have hut : u = t := (Option.some.inj hu).symm
        subst hut
        simp [hval]

/-- Witness for C8 on an empty registry and an unknown tool name. -/
theorem c8_witness :
    (ToolRegistry.execute ⟨[]⟩ (constant_retry 0 (1/2)) "nope" []).error
      = some ToolErrorKind.unknownTool :=
  ((c8_protocol_errors ⟨[]⟩ (constant_retry 0 (1/2)) "nope" []).1).mpr rfl

/-! Event bus delivery. -/

theorem publishGo_spec (ev : Event) :
    ∀ hs : List (Event → Except String Unit),
      publishGo ev hs
        = ⟨hs.map (fun h => h ev),
           hs.filterMap (fun h =>
             match h ev with
             | .ok _ => none
             | .error m => some (Event.mk .error m))⟩ := by
  intro hs
  induction hs with
  | nil => rfl
  | cons h rest ih =>
    simp only [publishGo, List.map_cons, List.filterMap_cons]
    cases he : h ev with
    | ok u => rw [ih]
    | error m => rw [ih]

/-- C7: publish delivers the event to exactly the handlers subscribed to its
kind, each invoked once, in registration order; the result trace lists every
subscribed handler outcome, so a raising handler never prevents delivery to
subsequent handlers; each failure is wrapped into an error-kind diagnostic
event; publish is a total function, so no handler failure unwinds its caller;
and subscribing appends the handler at the end of the delivery order. -/
theorem c7_publish_delivery (cb : StreamCallback) (ev : Event) :
    (publish cb ev).trace = (handlersFor cb ev.kind).map (fun h => h ev) ∧
    (publish cb ev).diagnostics = (handlersFor cb ev.kind).filterMap
      (fun h =>
        match h ev with
        | .ok _ => none
        | .error m => some (Event.mk .error m)) ∧
    (∀ d ∈ (publish cb ev).diagnostics, d.kind = EventKind.error) ∧
    (∀ (k : EventKind) (h : Event → Except String Unit),
      handlersFor (cb.on k h) k = handlersFor cb k ++ [h]) := by
  refine ⟨?_, ?_, ?_, ?_⟩
  · rw [publish, publishGo_spec]
  · rw [publish, publishGo_spec]
  · intro d hd
    rw [publish, publishGo_spec] at hd
    simp only [List.mem_filterMap] at hd
    obtain ⟨h, _, hmatch⟩ := hd
    cases he : h ev with
    | ok u => rw [he] at hmatch; simp at hmatch
    | error m =>
      rw [he] at hmatch
      have := Option.some.inj hmatch
      rw [← this]
  · intro k h
    simp [handlersFor, StreamCallback.on, List.filterMap_append]

/-- Witness for C7: a failing handler followed by a succeeding one, with the
diagnostic of the failing handler shown to carry the error kind. -/
theorem c7_witness :
    (Event.mk EventKind.error "bad").kind = EventKind.error :=
  (c7_publish_delivery
      ((StreamCallback.on (StreamCallback.on ⟨[]⟩ EventKind.turnStarted
          (fun _ => Except.error "bad")) EventKind.turnStarted
          (fun _ => Except.ok ())))
      ⟨EventKind.turnStarted, "x"⟩).2.2.1
    (Event.mk EventKind.error "bad") (by decide)

/-! Tool-execution phase: message order is the request order, independent of
the completion order. -/

theorem gatherMsgs_eq (f : ToolRequest → ToolResult) :
    ∀ (L : List ToolRequest) (i : Nat) (compl : List (Nat × ToolResult)),
      (∀ k (hk : k < L.length), compl.lookup (i + k) = some (f (L.get ⟨k, hk⟩))) →
      gatherMsgs compl L i = L.map (fun r => mkToolMsg r (f r)) := by
  intro L
  induction L with
  | nil => intro i compl _; simp [gatherMsgs]
  | cons r rest ih =>
    intro i compl h
    have h0 : compl.lookup i = some (f r) := by
      have := h 0 (by simp)
      simpa using this
    simp only [gatherMsgs, h0, List.map_cons]
    congr 1
    refine ih (i + 1) compl ?_
    intro k hk
    have hk1 : k + 1 < (r :: rest).length := by simp; omega
    have := h (k + 1) hk1
    have e1 : i + (k + 1) = i + 1 + k := by omega
    rw [e1] at this
    simpa using this

theorem lookup_completedResults (reg : ToolRegistry) (pol : RetryPolicy)
    (reqs : List ToolRequest) :
    ∀ (order : List Nat) (i : Nat) (hk : i < reqs.length), i ∈ order →
      (completedResults reg pol reqs order).lookup i
        = some (reg.execute pol (reqs.get ⟨i, hk⟩).name (reqs.get ⟨i, hk⟩).arguments) := by
  intro order
  induction order with
  | nil => intro i hk hmem; simp at hmem
  | cons j js ih =>
    intro i hk hmem
    simp only [completedResults, List.filterMap_cons]
    by_cases hji : j = i
    · subst hji
      rw [List.get?_eq_get hk]
      simp [List.lookup, completedResults]
    · cases hj : reqs.get? j with
      | none =>
        have hmem2 : i ∈ js := by
          rcases List.mem_cons.mp hmem with h1 | h1
          · exact absurd h1.symm hji
          · exact h1
        simpa [completedResults] using ih i hk hmem2
      | some rj =>
        have hmem2 : i ∈ js := by
          rcases List.mem_cons.mp hmem with h1 | h1
          · exact absurd h1.symm hji
          · exact h1
        have hbeq : (i == j) = false := by
          simp [beq_eq_false_iff_ne]
          exact fun hij => hji hij.symm
        simp only [Option.map_some']
        rw [List.lookup]
        simp only [hbeq]
        simpa [completedResults] using ih i hk hmem2

/-- C3: within one tool-execution phase, the tool messages appended to the
thread are exactly the per-request results in the original request order,
whatever completion order the phase dispatch produced (any completion order
covering the requests yields the same message list). -/
theorem c3_tool_messages_in_request_order (reg : ToolRegistry) (pol : RetryPolicy)
    (reqs : List ToolRequest) (order : List Nat) (th : Thread)
    (hcover : ∀ i, i < reqs.length → i ∈ order) :
    (execPhase reg pol reqs order th).messages
      = th.messages ++ reqs.map (fun r => mkToolMsg r (reg.execute pol r.name r.arguments)) := by
  unfold execPhase
  simp only
  congr 1
  refine gatherMsgs_eq (fun r => reg.execute pol r.name r.arguments) reqs 0
    (completedResults reg pol reqs order) ?_
  intro k hk
  have e0 : 0 + k = k := by omega
  rw [e0]
  exact lookup_completedResults reg pol reqs order k hk (hcover k hk)

/-- Echo tool used as a concrete witness input for the phase ordering. -/
def echoTool : Tool :=
  ⟨"echo", "echoes", [("text", PType.str)], fun _ _ => .ok "done"⟩

/-- Two concrete requests for the witness. -/
def reqsW : List ToolRequest :=
  [⟨"echo", [("text", PValue.str "a")]⟩, ⟨"echo", [("text", PValue.str "b")]⟩]

/-- Witness for C3 with the completion order reversed relative to the request
order. -/
theorem c3_witness :
    (execPhase ⟨[echoTool]⟩ (constant_retry 0 (1/2)) reqsW [1, 0] ⟨[], []⟩).messages
      = Thread.messages ⟨[], []⟩ ++ reqsW.map
          (fun r => mkToolMsg r (ToolRegistry.execute ⟨[echoTool]⟩ (constant_retry 0 (1/2))
            r.name r.arguments)) :=
  c3_tool_messages_in_request_order ⟨[echoTool]⟩ (constant_retry 0 (1/2)) reqsW [1, 0]
    ⟨[], []⟩ (by decide)

/-! Run-loop theorems. -/

theorem getLast?_append_singleton (l : List α) (a : α) : (l ++ [a]).getLast? = some a := by
  induction l with
  | nil => rfl
  | cons x xs ih =>
    rw [List.cons_append, List.getLast?_cons, ih]
    rfl

theorem runLoop_ok_last (cfg : AgentConfig) (reg : ToolRegistry)
    (mc : Nat → Except String ModelResponse) (sched : Nat → List Nat) (stream : Bool) :
    ∀ (fuel calls phases : Nat) (th : Thread) (t : String),
      (runLoop cfg reg mc sched stream fuel calls phases th).result = .ok t →
      (runLoop cfg reg mc sched stream fuel calls phases th).thread.messages.getLast?
        = some ⟨Role.assistant, t, none⟩ := by
  intro fuel
  induction fuel with
  | zero =>
    intro calls phases th t h
    simp [runLoop] at h
  | succ fuel ih =>
    intro calls phases th t h
    simp only [runLoop] at h ⊢
    rcases hr : retryGo mc cfg.retry_policy.max_retries calls with ⟨res, calls2⟩
    rw [hr] at h
    cases res with
    | error e => simp at h
    | ok resp =>
      obtain ⟨text, reqs, chunks⟩ := resp
      cases reqs with
      | nil =>
        have ht : text = t := by simpa using h
        subst ht
        simp [Thread.append, Thread.record, getLast?_append_singleton]
      | cons q qs =>
        exact ih calls2 (phases + 1) _ t (by simpa using h)

/-- C2: whenever a run terminates normally (the run loop returns ok), the
returned text is the content of the last assistant message appended to the
thread; every ok outcome arises only from the branch in which the model
response contains no tool requests, the single normal termination. -/
theorem c2_normal_termination_text (a : Agent) (mc : Nat → Except String ModelResponse)
    (sched : Nat → List Nat) (user_input : String) (th : Thread) (stream : Bool)
    (max_iterations : Nat) (t : String)
    (h : (a.run mc sched user_input th stream max_iterations).result = .ok t) :
    (a.run mc sched user_input th stream max_iterations).thread.messages.getLast?
      = some ⟨Role.assistant, t, none⟩ :=
  runLoop_ok_last a.config a.tools mc sched stream max_iterations 0 0 _ t h

/-- Concrete configuration used in witnesses. -/
def cfgW : AgentConfig := ⟨"TestAgent", "prompt", constant_retry 3 (1/2), true, 10⟩

/-- Concrete agent used in witnesses. -/
def agentW : Agent := ⟨cfgW, ⟨[]⟩⟩

/-- Witness for C2: a model answering immediately with no tool requests. -/
theorem c2_witness :
    (agentW.run (fun _ => .ok ⟨"hello", [], []⟩) (fun _ => []) "hi" ⟨[], []⟩ false
        3).thread.messages.getLast? = some ⟨Role.assistant, "hello", none⟩ :=
  c2_normal_termination_text agentW (fun _ => .ok ⟨"hello", [], []⟩) (fun _ => []) "hi"
    ⟨[], []⟩ false 3 "hello" rfl

/-- C5: if the model client fails on every call and the retry policy has
max_retries = 2, a run with a positive iteration budget fails with
modelUnavailable after exactly 3 model-call attempts, an error event is
recorded before the turn aborts, and the thread still contains the original
user message. -/
theorem c5_model_unavailable (a : Agent) (mc : Nat → Except String ModelResponse)
    (sched : Nat → List Nat) (user_input : String) (th : Thread) (stream : Bool)
    (max_iterations : Nat)
    (hfail : ∀ i, isOkE (mc i) = false)
    (hpol : a.config.retry_policy.max_retries = 2)
    (hiter : 1 ≤ max_iterations) :
    (a.run mc sched user_input th stream max_iterations).result
        = .error .modelUnavailable ∧
    (a.run mc sched user_input th stream max_iterations).modelCalls = 3 ∧
    (⟨Role.user, user_input, none⟩ : Message)
        ∈ (a.run mc sched user_input th stream max_iterations).thread.messages ∧
    ∃ ev ∈ (a.run mc sched user_input th stream max_iterations).thread.events,
      ev.kind = EventKind.error := by
  obtain ⟨m, rfl⟩ : ∃ m, max_iterations = m + 1 := ⟨max_iterations - 1, by omega⟩
  unfold Agent.run
  simp only [runLoop]
  rw [hpol, retryGo_allFail mc hfail 2 0]
  cases hm : mc (0 + 2) with
  | ok resp =>
    have := hfail (0 + 2)
    rw [hm] at this
    simp [isOkE] at this
  | error e =>
    refine ⟨rfl, rfl, ?_, ?_⟩
    · simp [Thread.append, Thread.record]
    · refine ⟨⟨EventKind.error, e⟩, ?_, rfl⟩
      simp [Thread.append, Thread.record]

/-- Concrete agent with max_retries = 2 for the C5 witness. -/
def agent2W : Agent := ⟨⟨"A", "s", constant_retry 2 (1/2), true, 10⟩, ⟨[]⟩⟩

/-- Witness for C5 with an always-failing model client. -/
theorem c5_witness :
    (agent2W.run (fun _ => .error "down") (fun _ => []) "hi" ⟨[], []⟩ false 1).result
        = .error .modelUnavailable ∧
    (agent2W.run (fun _ => .error "down") (fun _ => []) "hi" ⟨[], []⟩ false 1).modelCalls = 3 ∧
    (⟨Role.user, "hi", none⟩ : Message)
        ∈ (agent2W.run (fun _ => .error "down") (fun _ => []) "hi" ⟨[], []⟩ false
            1).thread.messages ∧
    ∃ ev ∈ (agent2W.run (fun _ => .error "down") (fun _ => []) "hi" ⟨[], []⟩ false
        1).thread.events, ev.kind = EventKind.error :=
  c5_model_unavailable agent2W (fun _ => .error "down") (fun _ => []) "hi" ⟨[], []⟩ false 1
    (fun _ => rfl) rfl (by decide)

/-- C6: against a model whose every response requests a tool call, a run with
max_iterations = 1 fails with iterationLimitExceeded after exactly one
tool-execution phase, and the returned outcome carries the partial thread,
which still contains the user message. -/
theorem c6_iteration_limit (a : Agent) (mc : Nat → Except String ModelResponse)
    (sched : Nat → List Nat) (user_input : String) (th : Thread) (stream : Bool)
    (htool : ∀ i, ∃ resp, mc i = .ok resp ∧ resp.tool_requests ≠ []) :
    (a.run mc sched user_input th stream 1).result = .error .iterationLimitExceeded ∧
    (a.run mc sched user_input th stream 1).toolPhases = 1 ∧
    (⟨Role.user, user_input, none⟩ : Message)
        ∈ (a.run mc sched user_input th stream 1).thread.messages := by
  obtain ⟨resp, hmc, hne⟩ := htool 0
  have e1 : (1 : Nat) = 0 + 1 := rfl
  unfold Agent.run
  rw [e1]
  simp only [runLoop]
  rw [retryGo_firstOk mc a.config.retry_policy.max_retries 0 resp hmc]
  obtain ⟨text, reqs, chunks⟩ := resp
  cases reqs with
  | nil => simp at hne
  | cons q qs =>
    refine ⟨rfl, rfl, ?_⟩
    simp [execPhase, Thread.append, Thread.record]

/-- Witness for C6 with a model that always requests one tool call. -/
theorem c6_witness :
    (agentW.run (fun _ => .ok ⟨"", [⟨"t", []⟩], []⟩) (fun _ => []) "hi" ⟨[], []⟩ false
        1).result = .error .iterationLimitExceeded ∧
    (agentW.run (fun _ => .ok ⟨"", [⟨"t", []⟩], []⟩) (fun _ => []) "hi" ⟨[], []⟩ false
        1).toolPhases = 1 ∧
    (⟨Role.user, "hi", none⟩ : Message)
        ∈ (agentW.run (fun _ => .ok ⟨"", [⟨"t", []⟩], []⟩) (fun _ => []) "hi" ⟨[], []⟩ false
            1).thread.messages :=
  c6_iteration_limit agentW (fun _ => .ok ⟨"", [⟨"t", []⟩], []⟩) (fun _ => []) "hi" ⟨[], []⟩
    false (fun _ => ⟨⟨"", [⟨"t", []⟩], []⟩, rfl, by simp⟩)

/-- C9: the calculate tool is total (it returns a string for every abstract
evaluator and expression, so no evaluation failure propagates): on success
the returned string begins with the result marker, and on any evaluation
failure, including the index error of the math branch and any failure of the
restricted evaluator, it begins with the error marker. -/
theorem c9_calculate_total (evalFn : Bool → String → Except String String)
    (expression : String) :
    (∀ v, calcEval evalFn expression = .ok v →
      ∃ rest, calculate evalFn expression = "📐 Result:" ++ rest) ∧
    (∀ m, calcEval evalFn expression = .error m →
      ∃ rest, calculate evalFn expression = "❌ Error calculating" ++ rest) := by
  constructor
  · intro v hv
    exact ⟨" " ++ (expression ++ (" = " ++ v)), by simp [calculate, hv]⟩
  · intro m hm
    exact ⟨" \x27" ++ (expression ++ ("\x27: " ++ m)), by simp [calculate, hm]⟩

/-- Witness for C9 on a successful evaluation of a plain expression. -/
theorem c9_witness :
    ∃ rest, calculate (fun _ _ => (Except.ok "8" : Except String String)) "5+3"
      = "📐 Result:" ++ rest :=
  (c9_calculate_total (fun _ _ => (Except.ok "8" : Except String String)) "5+3").1 "8" rfl

/-! Statefulness of flaky_tool. -/

theorem flakyIter_fst : ∀ n, (flakyIter n).1 = n := by
  intro n
  induction n with
  | zero => rfl
  | succ n ih =>
    simp only [flakyIter]
    rw [ih]
    by_cases h : n + 1 < 3 <;> simp [flaky_tool, h]

/-- C10: flaky_tool is stateful through the closed-over counter: starting
from 0, the n-th invocation fails with the simulated-failure message exactly
when n is below 3 and succeeds from the third invocation on, so re-invoking
after a failure does not reproduce the failure; in particular the second
invocation fails while the third succeeds. -/
theorem c10_flaky_stateful (n : Nat) (h1 : 1 ≤ n) :
    (n < 3 → (flakyIter n).2 = some (.error ("Simulated failure #" ++ toString n))) ∧
    (3 ≤ n → (flakyIter n).2 = some (.ok ("Success after " ++ (toString n ++ " attempts!")))) ∧
    (flakyIter 2).2 = some (.error "Simulated failure #2") ∧
    (flakyIter 3).2 = some (.ok "Success after 3 attempts!") := by
  obtain ⟨m, rfl⟩ : ∃ m, n = m + 1 := ⟨n - 1, by omega⟩
  refine ⟨?_, ?_, rfl, rfl⟩
  · intro hlt
    simp only [flakyIter, flakyIter_fst]
    simp [flaky_tool, hlt]
  · intro hge
    have hnlt : ¬ m + 1 < 3 := by omega
    simp only [flakyIter, flakyIter_fst]
    simp [flaky_tool, hnlt]

/-- Witness for C10 at the third invocation. -/
theorem c10_witness :
    (flakyIter 3).2 = some (.ok ("Success after " ++ (toString 3 ++ " attempts!"))) :=
  (c10_flaky_stateful 3 (by decide)).2.1 (by decide)

end MiniAgent
